import Mathlib

/-!
Verification development for the azure-external-issuer repository.

The Go sources are shallowly embedded as Lean functions.  External
collaborators (the Kubernetes client, the cert-manager condition
utilities, the go-autorest / adal credential library and the key-vault
CA backend) are modelled either as fixed tables taken from the
collaborator's source or as oracle records whose fields supply the
results of the external calls performed during one reconciliation.
Machine side effects (logging) are dropped; everything else is explicit
state passing.
-/

set_option maxRecDepth 4096

namespace AzureIssuer

/-- Outcome of a Go call that may panic (used for the key-vault token
path, where an out-of-bounds string index is reachable). -/
inductive GoResult (α : Type) where
  | panicked : GoResult α
  | err : String → GoResult α
  | ok : α → GoResult α
deriving DecidableEq, Repr

/-- cert-manager `CertificateRequestCondition`: type, status ("True" /
"False" / "Unknown"), reason, message and an optional transition time
(modelled as a natural number). -/
structure CRCondition where
  ctype : String
  status : String
  reason : String
  message : String
  lastTransitionTime : Option Nat
deriving DecidableEq, Repr

/-- The slice of a cert-manager `CertificateRequest` that the
reconciler reads or writes: identity, issuerRef, CSR bytes, status
conditions, failure time and the issued certificate bytes
(`Status.Certificate`, a Go `[]byte` whose zero value is modelled as
`[]`). -/
structure CertReq where
  name : String
  nspace : String
  issuerRefGroup : String
  issuerRefKind : String
  issuerRefName : String
  request : List Nat
  conditions : List CRCondition
  failureTime : Option Nat
  certificate : List Nat
deriving DecidableEq, Repr

/-- Issuer condition (`azureissuerv1alpha1.IssuerCondition`): same shape
as a request condition. -/
structure IssuerCondition where
  ctype : String
  status : String
  reason : String
  message : String
  lastTransitionTime : Option Nat
deriving DecidableEq, Repr

/-- `azureissuerv1alpha1.IssuerSpec` fields consumed by the reconciler. -/
structure IssuerSpecS where
  authSecretName : String
  keyvaultName : String
  issuerName : String
deriving DecidableEq, Repr

/-- An Issuer / ClusterIssuer object: spec plus status conditions. -/
structure IssuerObj where
  spec : IssuerSpecS
  conditions : List IssuerCondition
deriving DecidableEq, Repr

/-- `authConfig` from internal/issuer/signer/config.go. -/
structure AuthConfig where
  cloud : String
  tenantID : String
  aadClientID : String
  aadClientSecret : String
  useManagedIdentity : Bool
  userAssignedIdentityID : String
deriving DecidableEq, Repr

/-- The fields of go-autorest `azure.Environment` that the program
reads. -/
structure AzureEnvironment where
  activeDirectoryEndpoint : String
  serviceManagementEndpoint : String
  keyVaultEndpoint : String
  keyVaultDNSSuffix : String
deriving DecidableEq, Repr

/-- The three adal token-source strategies the program can construct,
carrying the arguments each constructor receives. -/
inductive TokenProvider where
  | msiUserAssigned (msiEndpoint smEndpoint userAssignedID : String)
  | msiSystem (msiEndpoint resource : String)
  | servicePrincipal (adEndpoint tenantID clientID clientSecret resource : String)
deriving DecidableEq, Repr

/-- `autorest.NewBearerAuthorizer` wrapper around a token provider. -/
inductive Authorizer where
  | bearer : TokenProvider → Authorizer
deriving DecidableEq, Repr

/-- The `caSigner` value built by `NewSigner`: the key-vault client with
its authorizer, bound to one vault URL. -/
structure CASigner where
  vaultURL : String
  authorizer : Authorizer
deriving DecidableEq, Repr

/-- Decoded PKCS#10 CSR fields used by `Sign`. -/
structure CSRInfo where
  rawSubject : String
  dnsNames : List String
deriving DecidableEq, Repr

/-- `kv.CertificateCreateParameters` content assembled by `Sign`. -/
structure CertCreateParams where
  subject : String
  dnsNames : List String
  issuerName : String
deriving DecidableEq, Repr

/-- Oracle for the adal library calls whose results depend on ambient
machine state: `adal.NewOAuthConfig` (URL template parsing; `some msg`
models failure) and `adal.GetMSIVMEndpoint` (reads the VM metadata
configuration). -/
structure AdalOracle where
  oauthErr : String → String → Option String
  msiEndpoint : Except String String

/-- Oracle for the CA-side calls made by `caSigner.Sign`:
`pki.DecodeX509CertificateRequestBytes` and
`kv.BaseClient.CreateCertificate` (vault URL, certificate name,
parameters; the returned operation is discarded by the code). -/
structure SignOracle where
  decodeCSR : List Nat → Except String CSRInfo
  createCertificate : String → String → CertCreateParams → Except String Unit

/-! ## cert-manager condition utilities

Models of the external collaborator `cmutil`
(github.com/jetstack/cert-manager/pkg/api/util), embedded from that
library's source: linear scans over the condition list. -/

/-- `cmutil.GetCertificateRequestCondition`: first condition of the
given type, if any. -/
def cmGetCondition (conds : List CRCondition) (t : String) : Option CRCondition :=
  conds.find? (fun c => c.ctype == t)

/-- `cmutil.CertificateRequestHasCondition` specialised to a type/status
pair: true iff some condition matches both fields. -/
def cmHasCondition (conds : List CRCondition) (t st : String) : Bool :=
  conds.any (fun c => c.ctype == t && c.status == st)

/-- `cmutil.CertificateRequestIsDenied`: a condition of type `Denied`
with status `True` exists. -/
def cmIsDenied (cr : CertReq) : Bool :=
  cmHasCondition cr.conditions "Denied" "True"

/-- `cmutil.CertificateRequestIsApproved`: a condition of type
`Approved` with status `True` exists. -/
def cmIsApproved (cr : CertReq) : Bool :=
  cmHasCondition cr.conditions "Approved" "True"

/-- `cmutil.SetCertificateRequestCondition`: replace the first
condition of the given type in place, keeping its transition time when
the status is unchanged and stamping `now` otherwise; append a freshly
stamped condition when none exists. -/
def cmSetCondition : List CRCondition → String → String → String → String → Nat → List CRCondition
  | [], t, st, r, m, now => [⟨t, st, r, m, some now⟩]
  | c :: rest, t, st, r, m, now =>
    if c.ctype == t then
      ⟨t, st, r, m, if c.status == st then c.lastTransitionTime else some now⟩ :: rest
    else
      c :: cmSetCondition rest t st r m now

/-! ## Auth config parsing (internal/issuer/signer/config.go) -/

/-- Go map indexing `data[key]` on a `map[string][]byte`: the value of
the first matching key, or the zero value (empty string) when the key
is missing. -/
def lookupData (data : List (String × String)) (k : String) : String :=
  ((data.find? (fun p => p.1 == k)).map (fun p => p.2)).getD ""

/-- `strconv.ParseBool`: the exact set of strings Go accepts. -/
def strconvParseBool (s : String) : Option Bool :=
  if s = "1" ∨ s = "t" ∨ s = "T" ∨ s = "TRUE" ∨ s = "true" ∨ s = "True" then some true
  else if s = "0" ∨ s = "f" ∨ s = "F" ∨ s = "FALSE" ∨ s = "false" ∨ s = "False" then some false
  else none

/-- `getConfigFromSecretData`: read the five string keys (missing keys
give the zero value), default `useManagedIdentity` to false, and parse
it with `strconv.ParseBool` when the value is non-empty; a parse
failure is a configuration error. -/
def getConfigFromSecretData (data : List (String × String)) : Except String AuthConfig :=
  let umi := lookupData data "useManagedIdentity"
  if umi ≠ "" then
    match strconvParseBool umi with
    | none =>
      Except.error ("failed to parse auth config: strconv.ParseBool: parsing \"" ++ umi ++ "\": invalid syntax")
    | some b =>
      Except.ok
        { cloud := lookupData data "cloud"
          tenantID := lookupData data "tenantID"
          aadClientID := lookupData data "aadClientID"
          aadClientSecret := lookupData data "aadClientSecret"
          useManagedIdentity := b
          userAssignedIdentityID := lookupData data "userAssignedIdentity" }
  else
    Except.ok
      { cloud := lookupData data "cloud"
        tenantID := lookupData data "tenantID"
        aadClientID := lookupData data "aadClientID"
        aadClientSecret := lookupData data "aadClientSecret"
        useManagedIdentity := false
        userAssignedIdentityID := lookupData data "userAssignedIdentity" }

/-- Serialization of an `AuthConfig` into the secret key/value payload,
written from the spec's round-trip property: each field under its
recognized key, the boolean as "true"/"false". -/
def serializeAuthConfig (c : AuthConfig) : List (String × String) :=
  [("cloud", c.cloud), ("tenantID", c.tenantID), ("aadClientID", c.aadClientID),
   ("aadClientSecret", c.aadClientSecret),
   ("useManagedIdentity", if c.useManagedIdentity then "true" else "false"),
   ("userAssignedIdentity", c.userAssignedIdentityID)]

/-! ## Cloud environment resolution (go-autorest `azure` package)

The fixed environment table from go-autorest, restricted to the fields
the program reads. -/

def publicCloud : AzureEnvironment :=
  { activeDirectoryEndpoint := "https://login.microsoftonline.com/"
    serviceManagementEndpoint := "https://management.core.windows.net/"
    keyVaultEndpoint := "https://vault.azure.net/"
    keyVaultDNSSuffix := "vault.azure.net" }

def usGovernmentCloud : AzureEnvironment :=
  { activeDirectoryEndpoint := "https://login.microsoftonline.us/"
    serviceManagementEndpoint := "https://management.core.usgovcloudapi.net/"
    keyVaultEndpoint := "https://vault.usgovcloudapi.net/"
    keyVaultDNSSuffix := "vault.usgovcloudapi.net" }

def chinaCloud : AzureEnvironment :=
  { activeDirectoryEndpoint := "https://login.chinacloudapi.cn/"
    serviceManagementEndpoint := "https://management.core.chinacloudapi.cn/"
    keyVaultEndpoint := "https://vault.azure.cn/"
    keyVaultDNSSuffix := "vault.azure.cn" }

def germanCloud : AzureEnvironment :=
  { activeDirectoryEndpoint := "https://login.microsoftonline.de/"
    serviceManagementEndpoint := "https://management.core.cloudapi.de/"
    keyVaultEndpoint := "https://vault.microsoftazure.de/"
    keyVaultDNSSuffix := "vault.microsoftazure.de" }

/-- `azure.EnvironmentFromName`: upper-case the name and look it up in
the fixed table.  `AZURESTACKCLOUD` would read an environment file
(absent here, so it errors); unknown names error citing the name. -/
def environmentFromName (name : String) : Except String AzureEnvironment :=
  let n := name.toUpper
  if n = "AZURECHINACLOUD" then Except.ok chinaCloud
  else if n = "AZUREGERMANCLOUD" then Except.ok germanCloud
  else if n = "AZUREPUBLICCLOUD" then Except.ok publicCloud
  else if n = "AZUREUSGOVERNMENTCLOUD" then Except.ok usGovernmentCloud
  else if n = "AZURESTACKCLOUD" then Except.error "missing environment variable AZURE_ENVIRONMENT_FILEPATH"
  else Except.error ("autorest/azure: There is no cloud environment matching the name \"" ++ n ++ "\"")

/-- `parseCloudEnvironment`: empty name selects the public cloud,
otherwise delegate to `azure.EnvironmentFromName`. -/
def parseCloudEnvironment (cloudName : String) : Except String AzureEnvironment :=
  if cloudName = "" then Except.ok publicCloud
  else environmentFromName cloudName

/-! ## Vault URL construction (`getVaultURL`) -/

/-- Go `len` on a string: its UTF-8 byte length. -/
def goStringLen (s : String) : Nat := s.utf8ByteSize

/-- Membership in the character class `[-A-Za-z0-9]`. -/
def isVaultNameChar (c : Char) : Bool :=
  c = '-' ∨ ('A' ≤ c ∧ c ≤ 'Z') ∨ ('a' ≤ c ∧ c ≤ 'z') ∨ ('0' ≤ c ∧ c ≤ '9')

/-- The regular expression `^[-A-Za-z0-9]+$`: at least one character,
all from the class. -/
def vaultNameRegexMatch (s : String) : Bool :=
  !s.data.isEmpty && s.data.all isVaultNameChar

/-- `getVaultURL`: the vault name must be 3 to 24 bytes long and match
`^[-A-Za-z0-9]+$`; valid names produce
`https://vaultName.KeyVaultDNSSuffix/`. -/
def getVaultURL (azureEnvironment : AzureEnvironment) (vaultName : String) : Except String String :=
  if goStringLen vaultName < 3 ∨ 24 < goStringLen vaultName then
    Except.error ("invalid vault name: \"" ++ vaultName ++ "\", must be between 3 and 24 chars")
  else if ¬ vaultNameRegexMatch vaultName then
    Except.error ("invalid vault name: \"" ++ vaultName ++ "\", must match [-a-zA-Z0-9]\x7b3,24\x7d")
  else
    Except.ok ("https://" ++ vaultName ++ "." ++ azureEnvironment.keyVaultDNSSuffix ++ "/")

/-! ## Token acquisition (`getServicePrincipalToken`, `getKeyvaultToken`) -/

/-- `getServicePrincipalToken`: build the OAuth config (oracle), then
pick exactly one credential strategy in order — user-assigned managed
identity, system-assigned managed identity, service principal — or fail
with "no credentials provided". -/
def getServicePrincipalToken (config : AuthConfig) (env : AzureEnvironment)
    (resource : String) (o : AdalOracle) : Except String TokenProvider :=
  match o.oauthErr env.activeDirectoryEndpoint config.tenantID with
  | some e => Except.error ("failed to create OAuth config, error: " ++ e)
  | none =>
    if config.useManagedIdentity then
      match o.msiEndpoint with
      | Except.error e => Except.error ("failed to get managed service identity endpoint, error: " ++ e)
      | Except.ok msiEp =>
        if 0 < config.userAssignedIdentityID.length then
          Except.ok (TokenProvider.msiUserAssigned msiEp env.serviceManagementEndpoint config.userAssignedIdentityID)
        else
          Except.ok (TokenProvider.msiSystem msiEp resource)
    else if 0 < config.aadClientID.length ∧ 0 < config.aadClientSecret.length then
      Except.ok (TokenProvider.servicePrincipal env.activeDirectoryEndpoint config.tenantID
        config.aadClientID config.aadClientSecret resource)
    else
      Except.error "no credentials provided for accessing keyvault"

/-- Strip one trailing `/` from a string, as `kvEndPoint[:len-1]` does
after the check `kvEndPoint[len-1] == '/'` (byte-level in Go; a final
byte `/` coincides with a final character `/` in valid UTF-8). -/
def stripTrailingSlash (s : String) : String :=
  if s.data.getLast? = some '/' then String.mk s.data.dropLast else s

/-- `getKeyvaultToken`: index the last byte of `env.KeyVaultEndpoint`
with no emptiness check (a panic when the endpoint is empty), strip a
trailing slash, obtain a service-principal token for that resource and
wrap it in a bearer authorizer. -/
def getKeyvaultToken (config : AuthConfig) (env : AzureEnvironment)
    (o : AdalOracle) : GoResult Authorizer :=
  if env.keyVaultEndpoint = "" then
    GoResult.panicked
  else
    match getServicePrincipalToken config env (stripTrailingSlash env.keyVaultEndpoint) o with
    | Except.error e => GoResult.err e
    | Except.ok tok => GoResult.ok (Authorizer.bearer tok)

/-! ## Signer construction and signing (`NewSigner`, `caSigner.Sign`) -/

/-- `NewSigner`: parse the auth config from the secret data, resolve
the cloud environment, build the vault URL, obtain the key-vault
authorizer, and return the signer bound to that vault.  Each failure is
returned unwrapped, as in the source.  (`AddToUserAgent` with the
constant non-empty agent string never fails and is omitted.) -/
def newSigner (creds : List (String × String)) (vaultName : String)
    (adal : AdalOracle) : GoResult CASigner :=
  match getConfigFromSecretData creds with
  | Except.error e => GoResult.err e
  | Except.ok config =>
    match parseCloudEnvironment config.cloud with
    | Except.error e => GoResult.err e
    | Except.ok env =>
      match getVaultURL env vaultName with
      | Except.error e => GoResult.err e
      | Except.ok vaultURL =>
        match getKeyvaultToken config env adal with
        | GoResult.panicked => GoResult.panicked
        | GoResult.err e => GoResult.err e
        | GoResult.ok authorizer => GoResult.ok { vaultURL := vaultURL, authorizer := authorizer }

/-- `caSigner.Sign`: decode the CSR, build the create-certificate
parameters (subject, DNS names, CA issuer name), submit to the CA
backend, and on success return `nil` certificate bytes (`return nil,
nil` in the source), modelled as the empty list. -/
def caSignerSign (s : CASigner) (certificateSigningRequest : List Nat)
    (name issuerName : String) (o : SignOracle) : Except String (List Nat) :=
  match o.decodeCSR certificateSigningRequest with
  | Except.error e => Except.error ("failed to decode CSR: " ++ e)
  | Except.ok csr =>
    match o.createCertificate s.vaultURL name
        { subject := csr.rawSubject, dnsNames := csr.dnsNames, issuerName := issuerName } with
    | Except.error e => Except.error ("failed to create certificate " ++ name ++ ": " ++ e)
    | Except.ok _ => Except.ok []

/-! ## Issuer condition store (internal/issuer/util) -/

/-- `util.GetReadyCondition`: first condition whose type is `Ready`
(the Go code returns a pointer to the loop copy; reads see the first
match). -/
def getReadyCondition (conds : List IssuerCondition) : Option IssuerCondition :=
  conds.find? (fun c => c.ctype == "Ready")

/-- The final loop of `util.SetReadyCondition`: overwrite the first
`Ready`-typed entry with the updated condition, leaving order and all
other entries unchanged; do nothing when no entry matches. -/
def replaceFirstReady : List IssuerCondition → IssuerCondition → List IssuerCondition
  | [], _ => []
  | c :: rest, r => if c.ctype == "Ready" then r :: rest else c :: replaceFirstReady rest r

/-- `util.SetReadyCondition`: fetch the first Ready condition (a fresh
zero-valued one is appended when absent), stamp a new transition time
only when the status field changes, always overwrite reason and
message, and write the result back over the first Ready entry. -/
def setReadyCondition (conds : List IssuerCondition) (st r m : String) (now : Nat) :
    List IssuerCondition :=
  match getReadyCondition conds with
  | some ready =>
    let ready1 := if ready.status ≠ st then { ready with status := st, lastTransitionTime := some now } else ready
    let ready2 := { ready1 with reason := r, message := m }
    replaceFirstReady conds ready2
  | none =>
    let fresh : IssuerCondition := { ctype := "Ready", status := "", reason := "", message := "", lastTransitionTime := none }
    let conds1 := conds ++ [fresh]
    let ready1 := if fresh.status ≠ st then { fresh with status := st, lastTransitionTime := some now } else fresh
    let ready2 := { ready1 with reason := r, message := m }
    replaceFirstReady conds1 ready2

/-- `util.IsReady`: the first Ready condition exists and has status
`True`. -/
def isReadyIssuer (conds : List IssuerCondition) : Bool :=
  match getReadyCondition conds with
  | some c => c.status == "True"
  | none => false

/-- Number of `Ready`-typed conditions in a status record. -/
def countReady (conds : List IssuerCondition) : Nat :=
  conds.countP (fun c => c.ctype == "Ready")

/-- Status field of the first Ready condition, `""` when absent (the Go
zero value the code compares against on the create path). -/
def prevReadyStatus (conds : List IssuerCondition) : String :=
  ((getReadyCondition conds).map (fun c => c.status)).getD ""

/-- Transition time of the first Ready condition, if any. -/
def prevReadyLTT (conds : List IssuerCondition) : Option Nat :=
  (getReadyCondition conds).bind (fun c => c.lastTransitionTime)

/-- One `Set` operation: status, reason, message and the clock reading
at that call. -/
def applySetOps (conds : List IssuerCondition) (ops : List (String × String × String × Nat)) :
    List IssuerCondition :=
  ops.foldl (fun cs op => setReadyCondition cs op.1 op.2.1 op.2.2.1 op.2.2.2) conds

/-! ## The certificate-request reconciler (controllers) -/

/-- The issuer variants registered for the group, as discriminated by
the type switch in `Reconcile`. -/
inductive IssuerKind where
  | namespacedIssuer
  | clusterIssuer
deriving DecidableEq, Repr

/-- The reconciler's configuration fields read by `Reconcile`. -/
structure ReconcilerCfg where
  clusterResourceNamespace : String
  checkApprovedCondition : Bool
deriving DecidableEq, Repr

/-- Oracle for the external calls of one reconciliation: scheme lookup
of the issuerRef kind, the issuer fetch, the secret fetch, the adal and
CA oracles, the result of the deferred `Status().Update` (`some msg` is
a failure) and the clock. -/
structure ReconcileOracle where
  schemeNew : String → Except String IssuerKind
  getIssuer : Except String IssuerObj
  getSecret : Except String (List (String × String))
  adal : AdalOracle
  sign : SignOracle
  updateErr : Option String
  now : Nat

/-- What one invocation produced: the in-memory request as last
written, the returned error and the number of `Status().Update`
attempts made. -/
structure ReconcileOutcome where
  req : CertReq
  err : Option String
  updateAttempts : Nat
deriving DecidableEq, Repr

/-- `azureissuerv1alpha1.GroupVersion.Group`, from the api package (its
value is visible in the repository's RBAC markers). -/
def expectedGroup : String := "azure-issuer.microsoft.com"

/-- The declared-but-unused sentinel `errSignerBuilder` from the
controller's var block. -/
def errSignerBuilder : String := "failed to build the signer"

/-- Sentinel `errGetAuthSecret`.  Modelled from the spec: the sentinel
is referenced by the controller but declared outside the provided
sources; the spec classifies this path as SecretFetchError. -/
def errGetAuthSecret : String := "failed to get auth secret"

/-- The message written by the denied gate. -/
def deniedMessage : String := "The CertificateRequest was denied by an approval controller"

/-- Update the request's Ready condition via the cert-manager helper
(the `setReadyCondition` closure in `Reconcile`). -/
def setReadyCR (cr : CertReq) (st r m : String) (now : Nat) : CertReq :=
  { cr with conditions := cmSetCondition cr.conditions "Ready" st r m now }

/-- The body of `Reconcile` between the deferred status update and the
returns: the denied gate, the approval gate, Ready-condition
initialization, issuer kind resolution, issuer fetch and readiness,
secret fetch, signer construction and signing.  The result pairs the
(possibly mutated) request with the operational error; `none` models a
Go panic propagating out of the body.  `GetSpecAndStatus` succeeds for
both modelled issuer variants, so its failure branch (like the type
switch default) is unreachable and not represented. -/
def reconcileCore (cfg : ReconcilerCfg) (cr : CertReq) (o : ReconcileOracle) :
    Option (CertReq × Option String) :=
  if cmIsDenied cr then
    let cr1 := if cr.failureTime = none then { cr with failureTime := some o.now } else cr
    some (setReadyCR cr1 "False" "Denied" deniedMessage o.now, none)
  else if cfg.checkApprovedCondition && !(cmIsApproved cr) then
    some (cr, none)
  else if (cmGetCondition cr.conditions "Ready").isNone then
    some (setReadyCR cr "False" "Pending" "Initializing" o.now, none)
  else
    match o.schemeNew cr.issuerRefKind with
    | Except.error e =>
      some (setReadyCR cr "False" "Failed" ("error interpreting issuerRef: " ++ e) o.now, none)
    | Except.ok k =>
      let secretNamespace :=
        match k with
        | IssuerKind.namespacedIssuer => cr.nspace
        | IssuerKind.clusterIssuer => cfg.clusterResourceNamespace
      match o.getIssuer with
      | Except.error e => some (cr, some ("error getting issuer: " ++ e))
      | Except.ok issuer =>
        if !(isReadyIssuer issuer.conditions) then
          some (cr, some "issuer is not ready")
        else
          match o.getSecret with
          | Except.error e =>
            some (cr, some (errGetAuthSecret ++ ", secret name: " ++ secretNamespace ++ "/" ++
              issuer.spec.authSecretName ++ ", reason: " ++ e))
          | Except.ok secretData =>
            match newSigner secretData issuer.spec.keyvaultName o.adal with
            | GoResult.panicked => none
            | GoResult.err e =>
              some (cr, some ("failed to get issuer client for " ++ issuer.spec.issuerName ++ ": " ++ e))
            | GoResult.ok issuerClient =>
              match caSignerSign issuerClient cr.request cr.name issuer.spec.issuerName o.sign with
              | Except.error e => some (cr, some ("failed to sign: " ++ e))
              | Except.ok signed =>
                some (setReadyCR { cr with certificate := signed } "True" "Issued" "Signed" o.now, none)

/-- `utilerrors.NewAggregate` over the prior operational error and the
status-update error: nil errors are filtered, a single error is
reported as itself, two errors are reported bracketed together. -/
def aggErr : Option String → String → String
  | none, ue => ue
  | some e, ue => "[" ++ e ++ ", " ++ ue ++ "]"

/-- The first half of the deferred block: when the body returned an
error, record it as a `False/Pending` Ready condition before the
update. -/
def deferApply (p : CertReq × Option String) (now : Nat) : CertReq :=
  match p.2 with
  | some e => setReadyCR p.1 "False" "Pending" e now
  | none => p.1

/-- `Reconcile` on a fetched request: the foreign-group and
already-Ready gates return before the deferred status update is
installed; every later path runs the body and then exactly one
`Status().Update`, whose failure is aggregated with the operational
error.  `none` models a panic escaping the invocation. -/
def reconcileFetched (cfg : ReconcilerCfg) (cr : CertReq) (o : ReconcileOracle) :
    Option ReconcileOutcome :=
  if cr.issuerRefGroup ≠ expectedGroup then some ⟨cr, none, 0⟩
  else if cmHasCondition cr.conditions "Ready" "True" then some ⟨cr, none, 0⟩
  else
    match reconcileCore cfg cr o with
    | none => none
    | some p =>
      let cr2 := deferApply p o.now
      match o.updateErr with
      | some ue => some ⟨cr2, some (aggErr p.2 ue), 1⟩
      | none => some ⟨cr2, p.2, 1⟩

/-- Substring test: some drop of `s` has `sub` as a prefix. -/
def hasSubstr (s sub : String) : Bool :=
  (List.range (s.data.length + 1)).any (fun i => sub.data.isPrefixOf (s.data.drop i))

/-- A ready issuer bound to vault `my-vault1` and CA issuer `my-issuer`. -/
def issuerMyVault : IssuerObj :=
  ⟨⟨"auth-secret", "my-vault1", "my-issuer"⟩, [⟨"Ready", "True", "", "", some 0⟩]⟩

/-- A pending request of the expected group referencing a namespaced
issuer, with its Ready condition already initialized. -/
def crPending : CertReq :=
  ⟨"req1", "ns1", expectedGroup, "Issuer", "iss1", [1, 2, 3],
   [⟨"Ready", "False", "Pending", "Initializing", some 0⟩], none, []⟩

/-- A scheme recognizing only the namespaced Issuer kind. -/
def schemeIssuerOnly : String → Except String IssuerKind :=
  fun k => if k = "Issuer" then Except.ok IssuerKind.namespacedIssuer
    else Except.error ("no kind is registered for the type " ++ k)

/-- Oracle whose secret carries an unparseable `useManagedIdentity`. -/
def oBadBool : ReconcileOracle :=
  ⟨schemeIssuerOnly, Except.ok issuerMyVault, Except.ok [("useManagedIdentity", "notabool")],
   ⟨fun _ _ => none, Except.ok "msiEp"⟩,
   ⟨fun _ => Except.ok ⟨"subj", ["example.com"]⟩, fun _ _ _ => Except.ok ()⟩, none, 7⟩

/-! ## Concrete inputs for the claim instances -/

/-- A request of the expected group for the end-to-end issuance run:
Ready already initialized, not denied, namespaced issuer kind. -/
def crIssueRun : CertReq :=
  { name := "req1", nspace := "ns1", issuerRefGroup := expectedGroup,
    issuerRefKind := "Issuer", issuerRefName := "iss1", request := [1, 2, 3],
    conditions := [⟨"Ready", "False", "Pending", "Initializing", some 0⟩],
    failureTime := none, certificate := [] }

/-- Oracle for the end-to-end issuance run: ready issuer, secret with
service-principal credentials, every external call succeeding. -/
def oIssueRun : ReconcileOracle :=
  { schemeNew := schemeIssuerOnly
    getIssuer := Except.ok issuerMyVault
    getSecret := Except.ok [("tenantID", "t"), ("aadClientID", "c"), ("aadClientSecret", "s")]
    adal := ⟨fun _ _ => none, Except.ok "http://msi"⟩
    sign := ⟨fun _ => Except.ok ⟨"subj", ["example.com"]⟩, fun _ _ _ => Except.ok ()⟩
    updateErr := none
    now := 7 }

/-- The signer `NewSigner` builds for the issuance-run secret. -/
def sgnIssueRun : CASigner :=
  ⟨"https://my-vault1.vault.azure.net/",
   Authorizer.bearer (TokenProvider.servicePrincipal "https://login.microsoftonline.com/"
     "t" "c" "s" "https://vault.azure.net")⟩

/-- Outcome of the issuance run. -/
def outIssueRun : ReconcileOutcome :=
  (reconcileFetched ⟨"cns", false⟩ crIssueRun oIssueRun).getD ⟨crIssueRun, none, 0⟩

def crForeign : CertReq :=
  ⟨"r", "ns", "example.com", "Issuer", "i", [], [], none, []⟩

def oInert : ReconcileOracle :=
  ⟨fun _ => Except.error "no kind", Except.error "e", Except.error "e",
   ⟨fun _ _ => none, Except.error "m"⟩,
   ⟨fun _ => Except.error "d", fun _ _ _ => Except.error "c"⟩, none, 0⟩

def crDenied : CertReq :=
  ⟨"req2", "ns1", expectedGroup, "Issuer", "iss1", [],
   [⟨"Denied", "True", "", "", some 0⟩], none, []⟩

def oDenied : ReconcileOracle :=
  ⟨schemeIssuerOnly, Except.error "e", Except.error "e",
   ⟨fun _ _ => none, Except.error "m"⟩,
   ⟨fun _ => Except.error "d", fun _ _ _ => Except.error "c"⟩, none, 7⟩

def outDenied : ReconcileOutcome :=
  (reconcileFetched ⟨"cns", false⟩ crDenied oDenied).getD ⟨crDenied, none, 0⟩

def crOutside : CertReq :=
  ⟨"r2", "ns", "cert-manager.io", "Issuer", "i", [], [], none, []⟩

def oNoop : ReconcileOracle :=
  ⟨schemeIssuerOnly, Except.error "e", Except.error "e",
   ⟨fun _ _ => none, Except.error "m"⟩,
   ⟨fun _ => Except.error "d", fun _ _ _ => Except.error "c"⟩, none, 0⟩

def oBoom : ReconcileOracle :=
  ⟨schemeIssuerOnly, Except.error "e", Except.error "e",
   ⟨fun _ _ => none, Except.error "m"⟩,
   ⟨fun _ => Except.error "d", fun _ _ _ => Except.error "c"⟩, some "boom", 7⟩

def outBoom : ReconcileOutcome :=
  (reconcileFetched ⟨"cns", false⟩ crDenied oBoom).getD ⟨crDenied, none, 0⟩

/-! ## Helper lemmas -/

theorem cmSet_hasCondition_ne (conds : List CRCondition) (t st r m : String) (now : Nat)
    (t' st' : String) (h : t' ≠ t) :
    cmHasCondition (cmSetCondition conds t st r m now) t' st' = cmHasCondition conds t' st' := by
  have hbeq : (t == t') = false := beq_eq_false_iff_ne.mpr (Ne.symm h)
  induction conds with
  | nil => simp [cmSetCondition, cmHasCondition, hbeq]
  | cons c rest ih =>
    rw [cmSetCondition]
    split
    · next hc =>
      simp only [beq_iff_eq] at hc
      simp [cmHasCondition, List.any_cons, hc, hbeq]
    · simp only [cmHasCondition, List.any_cons] at ih ⊢
      rw [ih]

theorem cmSet_hasCondition_other_false (conds : List CRCondition) (t st r m : String) (now : Nat)
    (st' : String) (hfalse : cmHasCondition conds t st' = false) (hst : st ≠ st') :
    cmHasCondition (cmSetCondition conds t st r m now) t st' = false := by
  have hbeq : (st == st') = false := beq_eq_false_iff_ne.mpr hst
  induction conds with
  | nil => simp [cmSetCondition, cmHasCondition, hbeq]
  | cons c rest ih =>
    simp only [cmHasCondition, List.any_cons, Bool.or_eq_false_iff] at hfalse
    rw [cmSetCondition]
    split
    · simp [cmHasCondition, List.any_cons, hbeq, hfalse.2]
    · simp only [cmHasCondition, List.any_cons, Bool.or_eq_false_iff]
      exact ⟨hfalse.1, ih hfalse.2⟩

theorem cmGet_cmSet_self (conds : List CRCondition) (t st r m : String) (now : Nat) :
    ∃ ltt, cmGetCondition (cmSetCondition conds t st r m now) t = some ⟨t, st, r, m, ltt⟩ := by
  induction conds with
  | nil => exact ⟨some now, by simp [cmSetCondition, cmGetCondition]⟩
  | cons c rest ih =>
    rw [cmSetCondition]
    split
    · exact ⟨if c.status == st then c.lastTransitionTime else some now,
        by simp [cmGetCondition]⟩
    · next hc =>
      obtain ⟨ltt, hltt⟩ := ih
      refine ⟨ltt, ?_⟩
      rw [cmGetCondition, List.find?_cons]
      rw [cmGetCondition] at hltt
      simp only [Bool.not_eq_true] at hc
      rw [hc]
      exact hltt

theorem caSignerSign_ok_nil (s : CASigner) (req : List Nat) (n i : String) (o : SignOracle)
    (signed : List Nat) (h : caSignerSign s req n i o = Except.ok signed) : signed = [] := by
  rcases hd : o.decodeCSR req with e | csr
  · simp [caSignerSign, hd] at h
  · rcases hc : o.createCertificate s.vaultURL n
        { subject := csr.rawSubject, dnsNames := csr.dnsNames, issuerName := i } with e | u
    · simp [caSignerSign, hd, hc] at h
    · simp only [caSignerSign, hd, hc] at h
      exact (Except.ok.injEq _ _ ▸ h).symm

theorem parseCloudEnvironment_keyVaultEndpoint_ne (c : String) (env : AzureEnvironment)
    (h : parseCloudEnvironment c = Except.ok env) : env.keyVaultEndpoint ≠ "" := by
  rw [parseCloudEnvironment, environmentFromName] at h
  repeat' split at h
  all_goals first
    | (simp only [Except.ok.injEq] at h; subst h; decide)
    | exact absurd h (by simp)

theorem getKeyvaultToken_no_panic (config : AuthConfig) (env : AzureEnvironment) (o : AdalOracle)
    (h : env.keyVaultEndpoint ≠ "") : getKeyvaultToken config env o ≠ GoResult.panicked := by
  rcases hs : getServicePrincipalToken config env (stripTrailingSlash env.keyVaultEndpoint) o with e | tok <;>
    simp [getKeyvaultToken, h, hs]

theorem newSigner_no_panic (creds : List (String × String)) (vaultName : String) (adal : AdalOracle) :
    newSigner creds vaultName adal ≠ GoResult.panicked := by
  rcases h1 : getConfigFromSecretData creds with e | config
  · simp [newSigner, h1]
  · rcases h2 : parseCloudEnvironment config.cloud with e | env
    · simp [newSigner, h1, h2]
    · rcases h3 : getVaultURL env vaultName with e | url
      · simp [newSigner, h1, h2, h3]
      · have hne := parseCloudEnvironment_keyVaultEndpoint_ne _ _ h2
        rcases h4 : getKeyvaultToken config env adal with _ | e | auth
        · exact absurd h4 (getKeyvaultToken_no_panic _ _ _ hne)
        · simp [newSigner, h1, h2, h3, h4]
        · simp [newSigner, h1, h2, h3, h4]

theorem reconcileCore_isSome (cfg : ReconcilerCfg) (cr : CertReq) (o : ReconcileOracle) :
    (reconcileCore cfg cr o).isSome := by
  rw [reconcileCore]
  repeat' split
  all_goals first
    | (simp; done)
    | (rename_i hn; exact absurd hn (newSigner_no_panic _ _ _))

theorem reconcileFetched_foreign (cfg : ReconcilerCfg) (cr : CertReq) (o : ReconcileOracle)
    (h : cr.issuerRefGroup ≠ expectedGroup) :
    reconcileFetched cfg cr o = some ⟨cr, none, 0⟩ := by
  rw [reconcileFetched, if_pos h]

theorem reconcileFetched_readyTrue (cfg : ReconcilerCfg) (cr : CertReq) (o : ReconcileOracle)
    (hg : cr.issuerRefGroup = expectedGroup)
    (hr : cmHasCondition cr.conditions "Ready" "True" = true) :
    reconcileFetched cfg cr o = some ⟨cr, none, 0⟩ := by
  rw [reconcileFetched, if_neg (by simp [hg]), if_pos hr]

theorem reconcileFetched_core (cfg : ReconcilerCfg) (cr : CertReq) (o : ReconcileOracle)
    (p : CertReq × Option String) (hg : cr.issuerRefGroup = expectedGroup)
    (hr : cmHasCondition cr.conditions "Ready" "True" = false)
    (hp : reconcileCore cfg cr o = some p) :
    reconcileFetched cfg cr o = some ⟨deferApply p o.now,
      match o.updateErr with | some ue => some (aggErr p.2 ue) | none => p.2, 1⟩ := by
  rw [reconcileFetched, if_neg (by simp [hg]), if_neg (by simp [hr]), hp]
  rcases hu : o.updateErr with _ | ue <;> simp [hu]

theorem reconcileCore_denied (cfg : ReconcilerCfg) (cr : CertReq) (o : ReconcileOracle)
    (hd : cmIsDenied cr = true) :
    reconcileCore cfg cr o = some (setReadyCR
      (if cr.failureTime = none then { cr with failureTime := some o.now } else cr)
      "False" "Denied" deniedMessage o.now, none) := by
  rw [reconcileCore, if_pos hd]

theorem ne_empty_length_pos (s : String) (h : s ≠ "") : 0 < s.length := by
  cases s with
  | mk l =>
    cases l with
    | nil => exact absurd rfl h
    | cons a t => simp [String.length]

theorem getVaultURL_accepts (env : AzureEnvironment) (n : String)
    (h3 : 3 ≤ goStringLen n) (h24 : goStringLen n ≤ 24) (hre : vaultNameRegexMatch n = true) :
    getVaultURL env n = Except.ok ("https://" ++ n ++ "." ++ env.keyVaultDNSSuffix ++ "/") := by
  rw [getVaultURL, if_neg (by omega), if_neg (by simp [hre])]

theorem getVaultURL_rejects (env : AzureEnvironment) (n : String)
    (h : goStringLen n < 3 ∨ 24 < goStringLen n ∨ (∃ c ∈ n.data, ¬ isVaultNameChar c)) :
    ∃ rest, getVaultURL env n = Except.error ("invalid vault name: \"" ++ n ++ rest) := by
  by_cases hlen : goStringLen n < 3 ∨ 24 < goStringLen n
  · exact ⟨"\", must be between 3 and 24 chars", by rw [getVaultURL, if_pos hlen]⟩
  · have hbad : ∃ c ∈ n.data, ¬ isVaultNameChar c := by tauto
    have hre : vaultNameRegexMatch n = false := by
      obtain ⟨c, hc, hnc⟩ := hbad
      rw [vaultNameRegexMatch]
      have : n.data.all isVaultNameChar = false := by
        rw [List.all_eq_false]
        exact ⟨c, hc, by simpa using hnc⟩
      simp [this]
    exact ⟨"\", must match [-a-zA-Z0-9]\x7b3,24\x7d",
      by rw [getVaultURL, if_neg hlen, if_pos (by simp [hre])]⟩

/-! ## Claims -/

/-- C7: vault-URL building rejects every name whose byte length is
outside 3..24 or containing a character outside `[-A-Za-z0-9]`, with a
validation error citing the offending name; every name of length 3..24
matching `^[-A-Za-z0-9]+$` is accepted and produces exactly
`https://vaultName.KeyVaultDNSSuffix/`; in particular "ab",
"toolongvaultname-------123456" and "bad_name!" are rejected and
"my-vault1" is accepted. -/
theorem vault_url_validation :
    (∀ env n, goStringLen n < 3 ∨ 24 < goStringLen n ∨ (∃ c ∈ n.data, ¬ isVaultNameChar c) →
      ∃ rest, getVaultURL env n = Except.error ("invalid vault name: \"" ++ n ++ rest)) ∧
    (∀ env n, 3 ≤ goStringLen n → goStringLen n ≤ 24 → vaultNameRegexMatch n = true →
      getVaultURL env n = Except.ok ("https://" ++ n ++ "." ++ env.keyVaultDNSSuffix ++ "/")) ∧
    (∀ env, (getVaultURL env "ab").isOk = false ∧
      (getVaultURL env "toolongvaultname-------123456").isOk = false ∧
      (getVaultURL env "bad_name!").isOk = false ∧
      getVaultURL env "my-vault1" = Except.ok ("https://my-vault1." ++ env.keyVaultDNSSuffix ++ "/")) := by
  refine ⟨getVaultURL_rejects, getVaultURL_accepts, fun env => ⟨?_, ?_, ?_, ?_⟩⟩
  · rw [getVaultURL, if_pos (by decide)]; rfl
  · rw [getVaultURL, if_pos (by decide)]; rfl
  · rw [getVaultURL, if_neg (by decide), if_pos (by decide)]; rfl
  · exact getVaultURL_accepts env "my-vault1" (by decide) (by decide) (by decide)

/-- Witness for C7: the acceptance and rejection branches at concrete
inputs. -/
theorem vault_url_validation_witness :
    getVaultURL publicCloud "my-vault1" =
      Except.ok ("https://" ++ "my-vault1" ++ "." ++ publicCloud.keyVaultDNSSuffix ++ "/") ∧
    (getVaultURL publicCloud "ab").isOk = false :=
  ⟨vault_url_validation.2.1 publicCloud "my-vault1" (by decide) (by decide) (by decide),
   (vault_url_validation.2.2 publicCloud).1⟩

/-- C9: parsing the serialized key/value map of any auth config returns
the original config; the empty map parses to the all-defaults config;
a present but unparseable `useManagedIdentity` value is a configuration
error. -/
theorem auth_config_round_trip :
    (∀ c : AuthConfig, getConfigFromSecretData (serializeAuthConfig c) = Except.ok c) ∧
    getConfigFromSecretData [] = Except.ok ⟨"", "", "", "", false, ""⟩ ∧
    (∀ data v, lookupData data "useManagedIdentity" = v → v ≠ "" → strconvParseBool v = none →
      getConfigFromSecretData data = Except.error
        ("failed to parse auth config: strconv.ParseBool: parsing \"" ++ v ++ "\": invalid syntax")) := by
  refine ⟨?_, by rfl, ?_⟩
  · intro c
    rcases c with ⟨cl, t, ci, cs, umi, uid⟩
    cases umi <;> rfl
  · intro data v hv hne hparse
    simp only [getConfigFromSecretData, hv]
    rw [if_pos hne, hparse]

/-- Witness for C9: round trip at a concrete config and the
configuration error at a concrete unparseable value. -/
theorem auth_config_round_trip_witness :
    getConfigFromSecretData (serializeAuthConfig ⟨"AzurePublicCloud", "t", "c", "s", true, "uid"⟩) =
      Except.ok ⟨"AzurePublicCloud", "t", "c", "s", true, "uid"⟩ ∧
    getConfigFromSecretData [("useManagedIdentity", "notabool")] = Except.error
      ("failed to parse auth config: strconv.ParseBool: parsing \"" ++ "notabool" ++ "\": invalid syntax") :=
  ⟨auth_config_round_trip.1 _,
   auth_config_round_trip.2.2 [("useManagedIdentity", "notabool")] "notabool" rfl (by decide) rfl⟩

/-- C10: the trailing-slash strip in `getKeyvaultToken` reads the last
byte of `env.KeyVaultEndpoint` with no emptiness check: with an empty
endpoint the panic branch of the embedding is reached for every config
and oracle, and with a non-empty endpoint it never is. -/
theorem keyvault_endpoint_index_bounds :
    (∀ config env o, env.keyVaultEndpoint = "" →
      getKeyvaultToken config env o = GoResult.panicked) ∧
    (∀ config env o, env.keyVaultEndpoint ≠ "" →
      getKeyvaultToken config env o ≠ GoResult.panicked) :=
  ⟨fun _ _ _ h => by rw [getKeyvaultToken, if_pos h],
   fun config env o h => getKeyvaultToken_no_panic config env o h⟩

/-- Witness for C10: both bounds at concrete environments. -/
theorem keyvault_endpoint_index_bounds_witness :
    getKeyvaultToken ⟨"", "t", "c", "s", false, ""⟩ ⟨"ad", "sm", "", "dns"⟩
      ⟨fun _ _ => none, Except.ok "m"⟩ = GoResult.panicked ∧
    getKeyvaultToken ⟨"", "t", "c", "s", false, ""⟩ publicCloud
      ⟨fun _ _ => none, Except.ok "m"⟩ ≠ GoResult.panicked :=
  ⟨keyvault_endpoint_index_bounds.1 _ _ _ rfl,
   keyvault_endpoint_index_bounds.2 _ _ _ (by decide)⟩

/-- C8: a fetched request whose issuerRef group differs from the
expected group is a no-op: the invocation returns success, the request
(conditions and all other status fields) is unchanged, and no status
update is attempted. -/
theorem foreign_group_noop (cfg : ReconcilerCfg) (cr : CertReq) (o : ReconcileOracle)
    (h : cr.issuerRefGroup ≠ expectedGroup) :
    reconcileFetched cfg cr o = some ⟨cr, none, 0⟩ :=
  reconcileFetched_foreign cfg cr o h

/-- Witness for C8: the no-op at a concrete foreign-group request. -/
theorem foreign_group_noop_witness :
    reconcileFetched ⟨"cns", true⟩ crForeign oInert = some ⟨crForeign, none, 0⟩ :=
  foreign_group_noop ⟨"cns", true⟩ crForeign oInert (by decide)

/-- C6: the token-source builder picks exactly one credential strategy
in order — user-assigned managed identity, system-assigned managed
identity, service principal (scoped to the trailing-slash-stripped
vault endpoint and the tenant ID) — and otherwise fails with "no
credentials provided". -/
theorem token_strategy_selection :
    (∀ config env resource o m, o.oauthErr env.activeDirectoryEndpoint config.tenantID = none →
      config.useManagedIdentity = true → o.msiEndpoint = Except.ok m →
      config.userAssignedIdentityID ≠ "" →
      getServicePrincipalToken config env resource o = Except.ok
        (TokenProvider.msiUserAssigned m env.serviceManagementEndpoint config.userAssignedIdentityID)) ∧
    (∀ config env resource o m, o.oauthErr env.activeDirectoryEndpoint config.tenantID = none →
      config.useManagedIdentity = true → o.msiEndpoint = Except.ok m →
      config.userAssignedIdentityID = "" →
      getServicePrincipalToken config env resource o = Except.ok (TokenProvider.msiSystem m resource)) ∧
    (∀ config env resource o, o.oauthErr env.activeDirectoryEndpoint config.tenantID = none →
      config.useManagedIdentity = false → config.aadClientID ≠ "" → config.aadClientSecret ≠ "" →
      getServicePrincipalToken config env resource o = Except.ok
        (TokenProvider.servicePrincipal env.activeDirectoryEndpoint config.tenantID
          config.aadClientID config.aadClientSecret resource)) ∧
    (∀ config env resource o, o.oauthErr env.activeDirectoryEndpoint config.tenantID = none →
      config.useManagedIdentity = false →
      config.aadClientID = "" ∨ config.aadClientSecret = "" →
      getServicePrincipalToken config env resource o =
        Except.error "no credentials provided for accessing keyvault") ∧
    (∀ config env o, env.keyVaultEndpoint ≠ "" →
      getKeyvaultToken config env o =
        match getServicePrincipalToken config env (stripTrailingSlash env.keyVaultEndpoint) o with
        | Except.error e => GoResult.err e
        | Except.ok tok => GoResult.ok (Authorizer.bearer tok)) := by
  refine ⟨?_, ?_, ?_, ?_, ?_⟩
  · intro config env resource o m h1 h2 h3 h4
    simp only [getServicePrincipalToken, h1, h3]
    rw [if_pos h2, if_pos (ne_empty_length_pos _ h4)]
  · intro config env resource o m h1 h2 h3 h4
    simp only [getServicePrincipalToken, h1, h3, h4]
    rw [if_pos h2, if_neg (by simp)]
  · intro config env resource o h1 h2 h3 h4
    simp only [getServicePrincipalToken, h1]
    rw [if_neg (by simp [h2]),
      if_pos ⟨ne_empty_length_pos _ h3, ne_empty_length_pos _ h4⟩]
  · intro config env resource o h1 h2 h34
    simp only [getServicePrincipalToken, h1]
    rw [if_neg (by simp [h2]), if_neg (by rcases h34 with h | h <;> simp [h])]
  · intro config env o h
    rw [getKeyvaultToken, if_neg h]

/-- Witness for C6: the user-assigned strategy and the no-credentials
error at concrete inputs. -/
theorem token_strategy_selection_witness :
    getServicePrincipalToken ⟨"", "tid", "cid", "sec", true, "uid"⟩ publicCloud "res"
      ⟨fun _ _ => none, Except.ok "msiEp"⟩ =
      Except.ok (TokenProvider.msiUserAssigned "msiEp" publicCloud.serviceManagementEndpoint "uid") ∧
    getServicePrincipalToken ⟨"", "tid", "", "", false, ""⟩ publicCloud "res"
      ⟨fun _ _ => none, Except.ok "msiEp"⟩ =
      Except.error "no credentials provided for accessing keyvault" :=
  ⟨token_strategy_selection.1 _ publicCloud "res" _ "msiEp" rfl rfl rfl (by decide),
   token_strategy_selection.2.2.2.1 _ publicCloud "res" _ rfl rfl (Or.inl rfl)⟩

/-! ## C5 support: condition store lemmas -/

theorem getReady_none_countReady (conds : List IssuerCondition)
    (h : getReadyCondition conds = none) : countReady conds = 0 := by
  rw [getReadyCondition] at h
  rw [countReady, List.countP_eq_zero]
  intro c hc
  simpa using List.find?_eq_none.mp h c hc

theorem getReady_append_left_none (conds l : List IssuerCondition)
    (h : getReadyCondition conds = none) :
    getReadyCondition (conds ++ l) = getReadyCondition l := by
  induction conds with
  | nil => rfl
  | cons c rest ih =>
    cases hc : (c.ctype == "Ready")
    · simp only [getReadyCondition, List.cons_append, List.find?_cons, hc] at h ⊢
      exact ih h
    · simp only [getReadyCondition, List.find?_cons, hc] at h
      exact absurd h (by simp)

theorem replaceFirstReady_countReady (conds : List IssuerCondition) (r : IssuerCondition)
    (hr : r.ctype = "Ready") : countReady (replaceFirstReady conds r) = countReady conds := by
  induction conds with
  | nil => rfl
  | cons c rest ih =>
    rw [replaceFirstReady]
    split
    · next hc => simp [countReady, List.countP_cons, hr, hc]
    · next hc =>
      simp only [countReady, List.countP_cons] at ih ⊢
      rw [ih]

theorem replaceFirstReady_getReady (conds : List IssuerCondition) (r c0 : IssuerCondition)
    (hr : r.ctype = "Ready") (h : getReadyCondition conds = some c0) :
    getReadyCondition (replaceFirstReady conds r) = some r := by
  induction conds with
  | nil => exact absurd h (by simp [getReadyCondition])
  | cons c rest ih =>
    rw [replaceFirstReady]
    split
    · simp [getReadyCondition, List.find?_cons, hr]
    · next hc =>
      have hc' : (c.ctype == "Ready") = false := by simpa using hc
      rw [getReadyCondition, List.find?_cons, hc'] at h
      rw [getReadyCondition, List.find?_cons, hc']
      exact ih h

theorem setReadyCondition_countReady (conds : List IssuerCondition) (st r m : String) (now : Nat)
    (h : countReady conds ≤ 1) : countReady (setReadyCondition conds st r m now) ≤ 1 := by
  rcases hg : getReadyCondition conds with _ | ready
  · have h0 := getReady_none_countReady conds hg
    simp only [setReadyCondition, hg]
    by_cases hst : ("" : String) ≠ st
    · rw [if_pos hst, replaceFirstReady_countReady _ _ rfl, countReady, List.countP_append]
      rw [countReady] at h0
      simp [h0]
    · rw [if_neg hst, replaceFirstReady_countReady _ _ rfl, countReady, List.countP_append]
      rw [countReady] at h0
      simp [h0]
  · have hrc : ready.ctype = "Ready" := by simpa using List.find?_some hg
    simp only [setReadyCondition, hg]
    by_cases hst : ready.status ≠ st
    · rw [if_pos hst]
      exact le_trans (le_of_eq (replaceFirstReady_countReady _ _ (by exact hrc))) h
    · rw [if_neg hst]
      exact le_trans (le_of_eq (replaceFirstReady_countReady _ _ (by exact hrc))) h

theorem setReadyCondition_getReady (conds : List IssuerCondition) (st r m : String) (now : Nat) :
    ∃ c', getReadyCondition (setReadyCondition conds st r m now) = some c' ∧
      c'.status = st ∧ c'.reason = r ∧ c'.message = m ∧
      c'.lastTransitionTime = (if prevReadyStatus conds = st then prevReadyLTT conds else some now) := by
  rcases hg : getReadyCondition conds with _ | ready
  · have hp : prevReadyStatus conds = "" := by simp [prevReadyStatus, hg]
    have hl : prevReadyLTT conds = none := by simp [prevReadyLTT, hg]
    have hfind : getReadyCondition (conds ++
        [{ ctype := "Ready", status := "", reason := "", message := "", lastTransitionTime := none }]) =
        some { ctype := "Ready", status := "", reason := "", message := "", lastTransitionTime := none } := by
      rw [getReady_append_left_none _ _ hg]
      rfl
    simp only [setReadyCondition, hg]
    by_cases hst : ("" : String) ≠ st
    · rw [if_pos hst]
      refine ⟨_, replaceFirstReady_getReady _ _ _ rfl hfind, rfl, rfl, rfl, ?_⟩
      rw [hp, if_neg hst]
    · have hst' : ("" : String) = st := not_ne_iff.mp hst
      rw [if_neg hst]
      refine ⟨_, replaceFirstReady_getReady _ _ _ rfl hfind, hst', rfl, rfl, ?_⟩
      rw [hp, if_pos hst', hl]
  · have hrc : ready.ctype = "Ready" := by simpa using List.find?_some hg
    have hp : prevReadyStatus conds = ready.status := by simp [prevReadyStatus, hg]
    have hl : prevReadyLTT conds = ready.lastTransitionTime := by simp [prevReadyLTT, hg]
    simp only [setReadyCondition, hg]
    by_cases hst : ready.status ≠ st
    · rw [if_pos hst]
      refine ⟨_, replaceFirstReady_getReady _ _ _ (by exact hrc) hg, rfl, rfl, rfl, ?_⟩
      rw [hp, if_neg hst]
    · have hst' : ready.status = st := not_ne_iff.mp hst
      rw [if_neg hst]
      refine ⟨_, replaceFirstReady_getReady _ _ _ (by exact hrc) hg, hst', rfl, rfl, ?_⟩
      rw [hp, if_pos hst', hl]

/-- C5: for every sequence of Set operations on a status record with at
most one Ready condition, at most one Ready condition remains; and
after one Set, the first Ready condition carries the new status, reason
and message, with its transition time stamped exactly when the status
value changed (relative to the prior status, the zero value when
absent) and left untouched on a reason/message-only edit. -/
theorem ready_condition_store_invariant :
    (∀ conds ops, countReady conds ≤ 1 → countReady (applySetOps conds ops) ≤ 1) ∧
    (∀ conds st r m now, ∃ c',
      getReadyCondition (setReadyCondition conds st r m now) = some c' ∧
      c'.status = st ∧ c'.reason = r ∧ c'.message = m ∧
      c'.lastTransitionTime = (if prevReadyStatus conds = st then prevReadyLTT conds else some now)) := by
  constructor
  · intro conds ops
    induction ops generalizing conds with
    | nil => exact fun h => h
    | cons op rest ih =>
      intro h
      exact ih _ (setReadyCondition_countReady conds op.1 op.2.1 op.2.2.1 op.2.2.2 h)
  · exact setReadyCondition_getReady

/-- Witness for C5: the sequence invariant at a concrete record and
operation list. -/
theorem ready_condition_store_invariant_witness :
    countReady (applySetOps [] [("True", "Issued", "Signed", 5), ("False", "Pending", "x", 6)]) ≤ 1 :=
  ready_condition_store_invariant.1 [] [("True", "Issued", "Signed", 5), ("False", "Pending", "x", 6)]
    (by decide)

/-! ## C3 / C4 -/

/-- C3: at a concrete reconciliation whose signer construction fails
(secret with an unparseable `useManagedIdentity`), the invocation
returns a retryable error reading "failed to get issuer client for
...", and the declared sentinel text "failed to build the signer"
occurs nowhere in it — the code never uses its `errSignerBuilder`
sentinel. -/
theorem signer_build_failure_message_at_input :
    (reconcileFetched ⟨"cns", false⟩ crPending oBadBool).map (fun out => (out.err, out.updateAttempts)) =
      some (some ("failed to get issuer client for my-issuer: failed to parse auth config: strconv.ParseBool: parsing \"notabool\": invalid syntax"), 1) ∧
    hasSubstr "failed to get issuer client for my-issuer: failed to parse auth config: strconv.ParseBool: parsing \"notabool\": invalid syntax" errSignerBuilder = false := by
  constructor
  · rfl
  · decide

/-- What one reconciliation of a denied request does: stamp
`failureTime` when absent, keep the group, keep Ready out of the True
state, keep the Denied condition, set Ready to `False/Denied`, and
return the status-update error (if any) as the outcome. -/
theorem reconcileFetched_denied_fields (cfg : ReconcilerCfg) (cr : CertReq) (o : ReconcileOracle)
    (out : ReconcileOutcome)
    (hg : cr.issuerRefGroup = expectedGroup)
    (hr : cmHasCondition cr.conditions "Ready" "True" = false)
    (hd : cmIsDenied cr = true)
    (hout : reconcileFetched cfg cr o = some out) :
    out.req.failureTime = some (cr.failureTime.getD o.now) ∧
    out.req.issuerRefGroup = cr.issuerRefGroup ∧
    cmHasCondition out.req.conditions "Ready" "True" = false ∧
    cmIsDenied out.req = true ∧
    ((cmGetCondition out.req.conditions "Ready").map (fun c => (c.status, c.reason)) =
      some ("False", "Denied")) ∧
    (o.updateErr = none → out.err = none) := by
  have hcore := reconcileCore_denied cfg cr o hd
  have hfetched := reconcileFetched_core cfg cr o _ hg hr hcore
  rw [hout] at hfetched
  have houts := Option.some.inj hfetched
  subst houts
  have hcr1c : (if cr.failureTime = none then { cr with failureTime := some o.now } else cr).conditions =
      cr.conditions := by
    split <;> rfl
  refine ⟨?_, ?_, ?_, ?_, ?_, ?_⟩
  · rcases hft : cr.failureTime with _ | t <;> simp [deferApply, setReadyCR, hft]
  · rcases hft : cr.failureTime with _ | t <;> simp [deferApply, setReadyCR, hft]
  · have := cmSet_hasCondition_other_false
      (if cr.failureTime = none then { cr with failureTime := some o.now } else cr).conditions
      "Ready" "False" "Denied" deniedMessage o.now "True" (by rw [hcr1c]; exact hr) (by decide)
    simpa [deferApply, setReadyCR] using this
  · have hthis := cmSet_hasCondition_ne
      (if cr.failureTime = none then { cr with failureTime := some o.now } else cr).conditions
      "Ready" "False" "Denied" deniedMessage o.now "Denied" "True" (by decide)
    have hgoal : cmHasCondition (cmSetCondition
        (if cr.failureTime = none then { cr with failureTime := some o.now } else cr).conditions
        "Ready" "False" "Denied" deniedMessage o.now) "Denied" "True" = true := by
      rw [hthis, hcr1c]
      exact hd
    exact hgoal
  · obtain ⟨ltt, hltt⟩ := cmGet_cmSet_self
      (if cr.failureTime = none then { cr with failureTime := some o.now } else cr).conditions
      "Ready" "False" "Denied" deniedMessage o.now
    simp [deferApply, setReadyCR, hltt]
  · intro hu
    simp [hu]

/-- C4: a fetched denied request (matching group, not already Ready
True) gets `failureTime` stamped only when not already set, gets Ready
set to False with reason Denied, succeeds when the status update does,
and a second invocation leaves the first `failureTime` unchanged. -/
theorem denied_request_idempotent (cfg : ReconcilerCfg) (cr : CertReq) (o o2 : ReconcileOracle)
    (out : ReconcileOutcome)
    (hg : cr.issuerRefGroup = expectedGroup)
    (hr : cmHasCondition cr.conditions "Ready" "True" = false)
    (hd : cmIsDenied cr = true)
    (hout : reconcileFetched cfg cr o = some out) :
    (cr.failureTime = none → out.req.failureTime = some o.now) ∧
    (∀ t, cr.failureTime = some t → out.req.failureTime = some t) ∧
    ((cmGetCondition out.req.conditions "Ready").map (fun c => (c.status, c.reason)) =
      some ("False", "Denied")) ∧
    (o.updateErr = none → out.err = none) ∧
    (∀ out2, reconcileFetched cfg out.req o2 = some out2 →
      out2.req.failureTime = out.req.failureTime) := by
  have h1 := reconcileFetched_denied_fields cfg cr o out hg hr hd hout
  refine ⟨?_, ?_, h1.2.2.2.2.1, h1.2.2.2.2.2, ?_⟩
  · intro hft
    rw [h1.1, hft]
    rfl
  · intro t hft
    rw [h1.1, hft]
    rfl
  · intro out2 hout2
    have h2 := reconcileFetched_denied_fields cfg out.req o2 out2
      (h1.2.1.trans hg) h1.2.2.1 h1.2.2.2.1 hout2
    rw [h2.1, h1.1]
    rfl

/-- Witness for C4: one run on a concrete denied request stamps
failureTime with the clock, sets Ready to False/Denied and succeeds. -/
theorem denied_request_idempotent_witness :
    outDenied.req.failureTime = some 7 ∧
    ((cmGetCondition outDenied.req.conditions "Ready").map (fun c => (c.status, c.reason)) =
      some ("False", "Denied")) ∧
    outDenied.err = none := by
  have h := denied_request_idempotent ⟨"cns", false⟩ crDenied oDenied oDenied outDenied
    rfl rfl rfl rfl
  exact ⟨h.1 rfl, h.2.2.1, h.2.2.2.1 rfl⟩

/-! ## C2 / C1 -/

/-- C2 counterexample: a fetched request whose group is foreign exits
before the deferred status update is installed — zero persistence
attempts, refuting "every exit path performs exactly one attempt". -/
theorem foreign_gate_no_persist_attempt :
    (reconcileFetched ⟨"cns", true⟩ crOutside oNoop).map (fun out => out.updateAttempts) =
      some 0 := rfl

/-- C2 (amended): the foreign-group and already-Ready gates exit with
no persistence attempt; every other exit of a fetched-request
invocation runs the body (which always completes) and then exactly one
status update, whose failure is aggregated with any prior operational
error into an error outcome. -/
theorem persist_contract_after_claim_gates :
    (∀ cfg cr o, cr.issuerRefGroup ≠ expectedGroup →
      reconcileFetched cfg cr o = some ⟨cr, none, 0⟩) ∧
    (∀ cfg cr o, cr.issuerRefGroup = expectedGroup →
      cmHasCondition cr.conditions "Ready" "True" = true →
      reconcileFetched cfg cr o = some ⟨cr, none, 0⟩) ∧
    (∀ cfg cr o, (reconcileCore cfg cr o).isSome) ∧
    (∀ cfg cr o p, cr.issuerRefGroup = expectedGroup →
      cmHasCondition cr.conditions "Ready" "True" = false →
      reconcileCore cfg cr o = some p →
      reconcileFetched cfg cr o = some ⟨deferApply p o.now,
        match o.updateErr with | some ue => some (aggErr p.2 ue) | none => p.2, 1⟩) ∧
    (∀ cfg cr o out, cr.issuerRefGroup = expectedGroup →
      cmHasCondition cr.conditions "Ready" "True" = false →
      reconcileFetched cfg cr o = some out →
      out.updateAttempts = 1 ∧ (o.updateErr.isSome = true → out.err.isSome = true)) := by
  refine ⟨reconcileFetched_foreign, reconcileFetched_readyTrue, reconcileCore_isSome,
    reconcileFetched_core, ?_⟩
  intro cfg cr o out hg hr hout
  obtain ⟨p, hp⟩ := Option.isSome_iff_exists.mp (reconcileCore_isSome cfg cr o)
  have h4 := reconcileFetched_core cfg cr o p hg hr hp
  rw [hout] at h4
  have houts := Option.some.inj h4
  subst houts
  refine ⟨rfl, ?_⟩
  intro hu
  rcases hue : o.updateErr with _ | ue
  · rw [hue] at hu
    exact absurd hu (by simp)
  · simp [hue]

/-- Witness for C2 (amended): the no-attempt gate at a concrete foreign
request, and one attempt plus an error outcome when the update fails on
a concrete claimed request. -/
theorem persist_contract_after_claim_gates_witness :
    reconcileFetched ⟨"cns", true⟩ crOutside oNoop = some ⟨crOutside, none, 0⟩ ∧
    outBoom.updateAttempts = 1 ∧
    outBoom.err.isSome = true :=
  ⟨persist_contract_after_claim_gates.1 ⟨"cns", true⟩ crOutside oNoop (by decide),
   (persist_contract_after_claim_gates.2.2.2.2 ⟨"cns", false⟩ crDenied oBoom outBoom
     rfl rfl rfl).1,
   (persist_contract_after_claim_gates.2.2.2.2 ⟨"cns", false⟩ crDenied oBoom outBoom
     rfl rfl rfl).2 rfl⟩

theorem reconcileCore_success (cfg : ReconcilerCfg) (cr : CertReq) (o : ReconcileOracle)
    (k : IssuerKind) (issuer : IssuerObj) (data : List (String × String)) (sgn : CASigner)
    (signed : List Nat)
    (hd : cmIsDenied cr = false)
    (ha : cfg.checkApprovedCondition = false ∨ cmIsApproved cr = true)
    (hc : (cmGetCondition cr.conditions "Ready").isNone = false)
    (hk : o.schemeNew cr.issuerRefKind = Except.ok k)
    (hi : o.getIssuer = Except.ok issuer)
    (hready : isReadyIssuer issuer.conditions = true)
    (hs : o.getSecret = Except.ok data)
    (hsig : newSigner data issuer.spec.keyvaultName o.adal = GoResult.ok sgn)
    (hsign : caSignerSign sgn cr.request cr.name issuer.spec.issuerName o.sign = Except.ok signed) :
    reconcileCore cfg cr o =
      some (setReadyCR { cr with certificate := signed } "True" "Issued" "Signed" o.now, none) := by
  have ha' : (cfg.checkApprovedCondition && !cmIsApproved cr) = false := by
    rcases ha with h | h <;> simp [h]
  rw [reconcileCore, if_neg (by simp [hd]), if_neg (by simp [ha']), if_neg (by simp [hc])]
  simp [hk, hi, hready, hs, hsig, hsign]

/-- C1 (amended): when every gate passes and `Sign` succeeds, the bytes
returned by `Sign` are stored in the request's status and Ready is set
to True with reason Issued; but `Sign` returns nil bytes on success
(`return nil, nil`), so the stored certificate is always empty, not
non-empty. -/
theorem issued_path_stores_sign_result (cfg : ReconcilerCfg) (cr : CertReq) (o : ReconcileOracle)
    (k : IssuerKind) (issuer : IssuerObj) (data : List (String × String)) (sgn : CASigner)
    (signed : List Nat) (out : ReconcileOutcome)
    (hg : cr.issuerRefGroup = expectedGroup)
    (hr : cmHasCondition cr.conditions "Ready" "True" = false)
    (hd : cmIsDenied cr = false)
    (ha : cfg.checkApprovedCondition = false ∨ cmIsApproved cr = true)
    (hc : (cmGetCondition cr.conditions "Ready").isNone = false)
    (hk : o.schemeNew cr.issuerRefKind = Except.ok k)
    (hi : o.getIssuer = Except.ok issuer)
    (hready : isReadyIssuer issuer.conditions = true)
    (hs : o.getSecret = Except.ok data)
    (hsig : newSigner data issuer.spec.keyvaultName o.adal = GoResult.ok sgn)
    (hsign : caSignerSign sgn cr.request cr.name issuer.spec.issuerName o.sign = Except.ok signed)
    (hout : reconcileFetched cfg cr o = some out) :
    out.req.certificate = signed ∧ signed = [] ∧
    ((cmGetCondition out.req.conditions "Ready").map (fun c => (c.status, c.reason)) =
      some ("True", "Issued")) ∧
    (o.updateErr = none → out.err = none) := by
  have hcore := reconcileCore_success cfg cr o k issuer data sgn signed
    hd ha hc hk hi hready hs hsig hsign
  have hf := reconcileFetched_core cfg cr o _ hg hr hcore
  rw [hout] at hf
  have houts := Option.some.inj hf
  subst houts
  refine ⟨?_, caSignerSign_ok_nil _ _ _ _ _ _ hsign, ?_, ?_⟩
  · simp [deferApply, setReadyCR]
  · obtain ⟨ltt, hltt⟩ := cmGet_cmSet_self
      ({ cr with certificate := signed } : CertReq).conditions "Ready" "True" "Issued" "Signed" o.now
    simp [deferApply, setReadyCR, hltt]
  · intro hu
    simp [hu]

/-- C1 counterexample: a fully successful issuance at concrete inputs —
no error, Ready set to True/Issued — stores EMPTY certificate bytes,
because `Sign` returns nil on success; the claim's "non-empty for a
successful CA response" fails. -/
theorem issued_certificate_empty_at_input :
    (reconcileFetched ⟨"cns", false⟩ crIssueRun oIssueRun).map
      (fun out => (out.err,
        (cmGetCondition out.req.conditions "Ready").map (fun c => (c.status, c.reason)),
        out.req.certificate)) =
      some (none, some ("True", "Issued"), []) := rfl

/-- Witness for C1 (amended): the issuance run at concrete inputs. -/
theorem issued_path_stores_sign_result_witness :
    outIssueRun.req.certificate = [] ∧ outIssueRun.err = none :=
  have h := issued_path_stores_sign_result ⟨"cns", false⟩ crIssueRun oIssueRun
    IssuerKind.namespacedIssuer issuerMyVault
    [("tenantID", "t"), ("aadClientID", "c"), ("aadClientSecret", "s")] sgnIssueRun [] outIssueRun
    rfl rfl rfl (Or.inl rfl) rfl rfl rfl rfl rfl rfl rfl rfl
  ⟨h.1, h.2.2.2 rfl⟩

end AzureIssuer
